import Mathlib

/-!
Verification of the OrionTV detail/search session store
(`src/stores/detailStore.ts`) and its API client (`src/unnamed/part_000`).

JavaScript `number` values are modelled by exact rationals `ℚ`; the single
reachable source of `NaN` (a `parseFloat` call on an all-dots magnitude) is
modelled explicitly with `Option ℚ`, `none` standing for `NaN`.
-/

namespace OrionTV

/-- the `videoInfo` quality-measurement record (`{quality, loadSpeed, pingTime}`). -/
structure VideoInfo where
  quality : String
  loadSpeed : String
  pingTime : ℚ
deriving Repr, DecidableEq

/-- a search result / Candidate (`SearchResultWithResolution`): the fields the
session logic reads. `resolution` is `string | null | undefined`, collapsed to
`Option String`; `videoInfo` is optional. -/
structure Candidate where
  id : ℕ
  title : String
  episodes : List String
  source : String
  source_name : String
  year : String
  videoInfo : Option VideoInfo
  resolution : Option String
deriving Repr, DecidableEq

/-- the quality-label switch inside `calculateVideoScore` (lines 15-32). -/
def qualityScore (q : String) : ℚ :=
  if q = "4K" then 100
  else if q = "2K" then 85
  else if q = "1080p" then 75
  else if q = "720p" then 60
  else if q = "480p" then 40
  else if q = "SD" then 20
  else 30

/-- character class `[\d.]` of the speed regex. -/
def isDigitDotChar (c : Char) : Bool := c.isDigit || c = '.'

/-- JS `\s` on the ASCII range (space, tab, LF, VT, FF, CR); the session logic
only ever feeds provider strings whose whitespace is ASCII. -/
def isJsWhitespaceChar (c : Char) : Bool :=
  c = ' ' || c = '\t' || c = '\n' || c = '\x0b' || c = '\x0c' || c = '\r'

/-- match of `/^([\d.]+)\s*(KB\/s|MB\/s)$/` (line 40): because the three
character classes (digits-and-dots, whitespace, the unit letters) are disjoint,
the regex matches exactly the decompositions below.  Returns the captured
magnitude and whether the unit is `MB/s`. -/
def matchSpeedRegex (s : String) : Option (List Char × Bool) :=
  let cs := s.toList
  let mag := cs.takeWhile isDigitDotChar
  let rest := (cs.dropWhile isDigitDotChar).dropWhile isJsWhitespaceChar
  if mag.isEmpty then none
  else if rest = "KB/s".toList then some (mag, false)
  else if rest = "MB/s".toList then some (mag, true)
  else none

/-- numeric value of a digit string. -/
def digitsToNat (cs : List Char) : ℕ :=
  cs.foldl (fun n c => 10 * n + (c.toNat - '0'.toNat)) 0

/-- JS `parseFloat` restricted to the strings matched by `[\d.]+`: it reads the
longest prefix of the shape `digits [ '.' digits ]` and returns `NaN` (here
`none`) when that prefix contains no digit at all (e.g. `"."` or `"..5"`);
a second dot stops the parse (`"1.2.3"` parses as `1.2`). -/
def parseFloatDigitsDots (cs : List Char) : Option ℚ :=
  let intPart := cs.takeWhile Char.isDigit
  let rest := cs.dropWhile Char.isDigit
  let fracPart := if rest.head? = some '.' then rest.tail.takeWhile Char.isDigit else []
  if intPart.isEmpty && fracPart.isEmpty then none
  else some ((digitsToNat intPart : ℚ) + (digitsToNat fracPart : ℚ) / 10 ^ fracPart.length)

/-- parsed speed in KB/s (lines 43-45): regex magnitude through `parseFloat`,
`MB/s` scaled by 1024.  `none` when the regex does not match or the magnitude
parses to `NaN`. -/
def speedValueKBps (speedStr : String) : Option ℚ :=
  match matchSpeedRegex speedStr with
  | none => none
  | some (mag, isMB) =>
    match parseFloatDigitsDots mag with
    | none => none
    | some value => some (if isMB then value * 1024 else value)

/-- JS `Math.min` on two non-`NaN` numbers. -/
def jsMin (a b : ℚ) : ℚ := if a ≤ b then a else b

/-- the load-speed component of `calculateVideoScore` (lines 36-52).  The two
sentinel strings and a failed regex match score 30; a matched magnitude is
clamped at 5120 KB/s and scaled linearly to 0-100.  `none` is the `NaN`
produced when the magnitude has no digit. -/
def speedScore (speedStr : String) : Option ℚ :=
  if speedStr = "未知" || speedStr = "测量中..." then some 30
  else
    match matchSpeedRegex speedStr with
    | none => some 30
    | some (mag, isMB) =>
      match parseFloatDigitsDots mag with
      | none => none
      | some value =>
        let speedKBps := if isMB then value * 1024 else value
        some (jsMin (speedKBps / 5120) 1 * 100)

/-- the ping component of `calculateVideoScore` (lines 56-69). -/
def pingScore (ping : ℚ) : ℚ :=
  if ping ≤ 0 then 0
  else if ping ≤ 50 then 100
  else if ping ≥ 1000 then 0
  else (1000 - ping) / (1000 - 50) * 100

/-- JS `Math.round`: half-up rounding. -/
def jsRound (x : ℚ) : ℤ := (x + 1 / 2).floor

/-- rounding of the final score to two decimal places (line 72). -/
def round2 (x : ℚ) : ℚ := (jsRound (x * 100) : ℚ) / 100

/-- `calculateVideoScore` (detailStore.ts lines 11-73): weighted sum of the
three components, rounded to two decimals; `none` models the `NaN` score
produced when the speed magnitude parses to `NaN`. -/
def calculateVideoScore (v : VideoInfo) : Option ℚ :=
  match speedScore v.loadSpeed with
  | none => none
  | some ss =>
    let score := qualityScore v.quality * (4/10) + ss * (4/10) + pingScore v.pingTime * (2/10)
    some (round2 score)

/-! ### The spec-side scorer (§4.3), for the refinement claim C4 -/

/-- Spec §4.3: the fixed quality-label score table
(4K=100, 2K=85, 1080p=75, 720p=60, 480p=40, SD=20). -/
def specQualityTable : List (String × ℚ) :=
  [("4K", 100), ("2K", 85), ("1080p", 75), ("720p", 60), ("480p", 40), ("SD", 20)]

/-- Spec §4.3: quality component — table lookup, unknown/other labels score 30. -/
def specQualityScore (label : String) : ℚ :=
  (specQualityTable.lookup label).getD 30

/-- Spec §4.3 speed component, with the amendment forced by the code's
`parseFloat` semantics: the magnitude of a matched pattern is read by
`parseFloat` (longest `digits [. digits]` prefix), and a magnitude containing
no digit yields `NaN` (`none`) instead of the score 30; the sentinel strings
and non-matching strings score 30; a parsed value is normalised to KB/s,
clamped at the 5120 KB/s ceiling and scaled linearly to 0-100. -/
def specSpeedScore (s : String) : Option ℚ :=
  if s = "未知" || s = "测量中..." then some 30
  else
    match matchSpeedRegex s with
    | none => some 30
    | some (mag, isMB) =>
      (parseFloatDigitsDots mag).map fun v =>
        jsMin (if isMB then v * 1024 else v) 5120 / 5120 * 100

/-- Spec §4.3 ping component: 100 at most 50 ms, 0 from 1000 ms up, linear
interpolation between, non-positive latency scores 0. -/
def specPingScore (p : ℚ) : ℚ :=
  if p ≤ 0 then 0
  else if p ≤ 50 then 100
  else if 1000 ≤ p then 0
  else (1000 - p) * 100 / 950

/-- Spec §4.3: the weighted sum 0.4/0.4/0.2 of the three components, rounded
to two decimal places (`none` = `NaN`, per the amendment). -/
def specVideoScore (v : VideoInfo) : Option ℚ :=
  (specSpeedScore v.loadSpeed).map fun ss =>
    round2 (4/10 * specQualityScore v.quality + 4/10 * ss + 2/10 * specPingScore v.pingTime)

/-- the speed component exactly as claim C4 words it: every input receives a
numeric score, an unparsable magnitude scoring 30. -/
def specSpeedScoreClaimed (s : String) : ℚ :=
  if s = "未知" || s = "测量中..." then 30
  else
    match matchSpeedRegex s with
    | none => 30
    | some (mag, isMB) =>
      match parseFloatDigitsDots mag with
      | none => 30
      | some v => jsMin (if isMB then v * 1024 else v) 5120 / 5120 * 100

/-- the total score exactly as claim C4 words it (always a number). -/
def specVideoScoreClaimed (v : VideoInfo) : ℚ :=
  round2 (4/10 * specQualityScore v.quality + 4/10 * specSpeedScoreClaimed v.loadSpeed
    + 2/10 * specPingScore v.pingTime)

/-! ### The session store (`useDetailStore`) -/

/-- one entry of the `sources` projection (state fields, lines 87-96). -/
structure SourceInfo where
  source : String
  source_name : String
  resolution : Option String
  videoInfo : Option VideoInfo
deriving Repr, DecidableEq

/-- a provider descriptor (`ApiSite` in the api client). -/
structure ApiSite where
  key : String
  api : String
  name : String
deriving Repr, DecidableEq

/-- the zustand store state (interface `DetailState`, lines 84-103).  The
`AbortController` is modelled by the abort flags threaded through the `init`
model below; `failedSources : Set<string>` is modelled as its insertion-order
element list. -/
structure DetailState where
  q : Option String
  searchResults : List Candidate
  sources : List SourceInfo
  detail : Option Candidate
  loading : Bool
  error : Option String
  allSourcesLoaded : Bool
  isFavorited : Bool
  failedSources : List String
deriving Repr, DecidableEq

/-- the store's construction-time state (lines 114-123). -/
def initialState : DetailState :=
  { q := none, searchResults := [], sources := [], detail := none, loading := true,
    error := none, allSourcesLoaded := false, isFavorited := false, failedSources := [] }

/-- JS `Set.prototype.add` on the insertion-order list model. -/
def setAdd (s : List String) (x : String) : List String :=
  if s.contains x then s else s ++ [x]

/-- `markSourceAsFailed` (lines 463-472): copies the failed set and adds the
source (the `reason` is only logged). -/
def markSourceAsFailed (st : DetailState) (source : String) (_reason : String) : DetailState :=
  { st with failedSources := setAdd st.failedSources source }

/-- the state reset performed at the top of `init` (the `set` of lines
136-144): `q`, `loading`, `searchResults`, `detail`, `error`,
`allSourcesLoaded` are reset and a new controller installed —
`failedSources` is NOT in the payload, so it is carried over. -/
def initResetState (q : String) (st : DetailState) : DetailState :=
  { st with q := some q, loading := true, searchResults := [], detail := none,
            error := none, allSourcesLoaded := false }

/-- the per-result enrichment inside `processAndSetResults` (lines 152-183):
a result with `videoInfo` gets `resolution := videoInfo.quality`; otherwise the
m3u8 probe runs on the first episode locator (`probe` is the external
`getResolutionFromM3U8` oracle, `none` covering both failure and no episode). -/
def enrichResult (probe : String → Option String) (r : Candidate) : Candidate :=
  match r.videoInfo with
  | some vi => { r with resolution := some vi.quality }
  | none =>
    { r with resolution := match r.episodes.head? with
                           | some e => probe e
                           | none => none }

/-- the `set` callback of `processAndSetResults` (lines 190-205): in merge
mode only incoming results whose `source` is not yet present are appended;
otherwise the batch replaces the set;  `sources` is re-projected and `detail`
defaults to the first result if unset. -/
def processAndSetResultsUpdate (st : DetailState) (resultsWithResolution : List Candidate)
    (merge : Bool) : DetailState :=
  let existingSources := st.searchResults.map (fun r => r.source)
  let newResults := resultsWithResolution.filter fun r => !(existingSources.contains r.source)
  let finalResults := if merge then st.searchResults ++ newResults else resultsWithResolution
  { st with
    searchResults := finalResults,
    sources := finalResults.map fun r =>
      { source := r.source, source_name := r.source_name,
        resolution := r.resolution, videoInfo := r.videoInfo },
    detail := st.detail.or finalResults.head? }

/-- `processAndSetResults` (lines 148-206): enrich the batch, then, unless the
signal was observed aborted after the enrichment awaits (line 188), apply the
`set` callback.  `abortedAfter` is the signal state at that check. -/
def processAndSetResults (probe : String → Option String) (abortedAfter : Bool)
    (st : DetailState) (results : List Candidate) (merge : Bool) : DetailState :=
  if abortedAfter then st
  else processAndSetResultsUpdate st (results.map (enrichResult probe)) merge

/-! ### The failover selector (`getNextAvailableSource`) -/

/-- JS `String.prototype.includes`. -/
def jsIncludes (s sub : String) : Bool := decide (sub.toList <:+: s.toList)

/-- the fixed resolution-label priority table (lines 514-520). -/
def resolutionPriority (res : String) : ℕ :=
  if jsIncludes res "1080" then 4
  else if jsIncludes res "720" then 3
  else if jsIncludes res "480" then 2
  else if jsIncludes res "360" then 1
  else 0

/-- the sort comparator (lines 502-523) as the JS number it returns: when both
sides carry `videoInfo`, `scoreB - scoreA`; otherwise the resolution-priority
difference (on `resolution || ""`).  A `NaN` score makes the subtraction
`NaN`, which the ES `SortCompare` step treats as `+0`. -/
def sourceCmp (a b : Candidate) : ℚ :=
  match a.videoInfo, b.videoInfo with
  | some va, some vb =>
    match calculateVideoScore va, calculateVideoScore vb with
    | some sa, some sb => sb - sa
    | _, _ => 0
  | _, _ =>
    (resolutionPriority (b.resolution.getD "") : ℚ) - (resolutionPriority (a.resolution.getD "") : ℚ)

/-- the boolean "may come first" relation induced by the comparator: JS sort
keeps `a` before `b` exactly when `cmp a b <= 0`; `Array.prototype.sort` is
required to be stable, modelled by the stable `List.mergeSort`. -/
def sourceLe (a b : Candidate) : Bool := decide (sourceCmp a b ≤ 0)

/-- the filter of lines 481-487: drop the current source, the failed sources
and candidates lacking an episode at the requested index. -/
def availableSources (searchResults : List Candidate) (failedSources : List String)
    (currentSource : String) (episodeIndex : ℕ) : List Candidate :=
  searchResults.filter fun r =>
    (r.source != currentSource) && !(failedSources.contains r.source)
      && decide (episodeIndex < r.episodes.length)

/-- `getNextAvailableSource` (lines 474-534): filter, then return the head of
the stable sort by the comparator (or `null` when nothing is left). -/
def getNextAvailableSource (searchResults : List Candidate) (failedSources : List String)
    (currentSource : String) (episodeIndex : ℕ) : Option Candidate :=
  if (availableSources searchResults failedSources currentSource episodeIndex).length = 0
  then none
  else ((availableSources searchResults failedSources currentSource episodeIndex).mergeSort
    sourceLe).head?

/-- rank of a candidate under the score-based comparison (the value the
comparator uses when both sides carry a defined score). -/
def scoreRank (c : Candidate) : ℚ := (c.videoInfo.bind calculateVideoScore).getD 0

/-- rank of a candidate under the resolution-label priority comparison. -/
def resRank (c : Candidate) : ℕ := resolutionPriority (c.resolution.getD "")

/-- Modelled from the spec: the `reportPlaybackFailure` entry point (§6) is
not part of the sources under `src/` (the player screen composes it); per
§4.4 it first records the failed sourceKey via `markSourceAsFailed` and then
selects a replacement via `getNextAvailableSource` on the updated session. -/
def reportPlaybackFailure (st : DetailState) (sourceKey : String) (episodeIndex : ℕ)
    (reason : String) : DetailState × Option Candidate :=
  let st1 := markSourceAsFailed st sourceKey reason
  (st1, getNextAvailableSource st1.searchResults st1.failedSources sourceKey episodeIndex)

/-! ### The search orchestrator (`init`, lines 125-431) -/

/-- the client-side filter inside `API.searchVideo`
(src/unnamed/part_000, lines 244-249): only exact title matches are returned. -/
def searchVideoClientFilter (query : String) (wire : List Candidate) : List Candidate :=
  wire.filter fun item => item.title = query

/-- user-facing message of line 272 (fallback found no match). -/
def noSourceFoundFallbackMsg (q : String) : String :=
  "未找到 \"" ++ q ++ "\" 的播放源，请检查标题或稍后重试"

/-- user-facing message of line 279 (fallback search threw). -/
def searchFailedMsg (e : String) : String := "搜索失败：" ++ e

/-- user-facing message of line 329 (no enabled resources). -/
def noEnabledSourcesMsg : String := "没有可用的视频源，请检查设置或联系管理员"

/-- user-facing message of line 369 (all fan-out sources empty). -/
def noSourceStdMsg (q : String) : String :=
  "未找到 \"" ++ q ++ "\" 的播放源，请尝试其他关键词或稍后重试"

/-- user-facing message of line 391 (final check found nothing). -/
def noResultsFinalMsg (q : String) : String :=
  "未找到 \"" ++ q ++ "\" 的播放源，请检查标题拼写或稍后重试"

/-- user-facing message of line 378 (getResources threw). -/
def getResourcesFailedMsg (e : String) : String := "获取视频源失败：" ++ e

/-- whether the session's signal is observed aborted at await-checkpoint `k`:
the external consumer aborts at some checkpoint `t` (or never), and abortion
is permanent. -/
def abortedAt (abortFrom : Option ℕ) (k : ℕ) : Bool :=
  match abortFrom with
  | none => false
  | some t => decide (t ≤ k)

/-- the favorite-status check of lines 398-410: when a detail is selected,
the external check runs and, on success, its result is stored; a failure is
swallowed.  No signal check. -/
def favoriteStep (favOutcome : Except String Bool) (st : DetailState) : DetailState :=
  match st.detail with
  | some _ =>
    match favOutcome with
    | .ok b => { st with isFavorited := b }
    | .error _ => st
  | none => st

/-- the final bookkeeping of lines 386-410: if the result set is empty and no
error is recorded, record the "no results" error (line 391, no signal check);
then the favorite-status step. -/
def finalSection (q : String) (favOutcome : Except String Bool) (st : DetailState) : DetailState :=
  favoriteStep favOutcome
    (if st.searchResults.length = 0 ∧ st.error = none
     then { st with error := some (noResultsFinalMsg q) } else st)

/-- the `finally` block (lines 422-427): only when the signal is NOT aborted,
clear loading and set the terminal flag. -/
def finallyStep (aborted : Bool) (st : DetailState) : DetailState :=
  if aborted then st else { st with loading := false, allSourcesLoaded := true }

/-- environment of one run of protocol A (preferred-source fast path):
the wire responses of the three network calls, the probe oracle, the favorite
check outcome, and the abort schedule.  Await-checkpoints: 0 = after the
preferred `searchVideo` (the line 230 check), 1 = inside the first
`processAndSetResults`, 3 = inside the fallback merge, 4 = after the
background `searchVideos` (the line 298 check), 5 = inside the background
merge, 7 = at the `finally` check.  The preferred `searchVideo` call carries
the session signal; the two `searchVideos` calls do not (the api client's
`searchVideos` has no signal parameter at all), so their outcomes are
delivered regardless of the schedule. -/
structure InitAEnv where
  preferredWire : Except String (List Candidate)
  fallbackOutcome : Except String (List Candidate)
  backgroundOutcome : Except String (List Candidate)
  probe : String → Option String
  favOutcome : Except String Bool
  abortFrom : Option ℕ

/-- `preferredResult` as left by lines 214-223: the preferred search's
client-filtered results on success, `[]` when the call threw. -/
def preferredResultOf (q : String) (env : InitAEnv) : List Candidate :=
  match env.preferredWire with
  | .ok rs => searchVideoClientFilter q rs
  | .error _ => []

/-- the try-block of protocol A (lines 210-306).  Returns the state together
with a flag saying an early `return` was executed (which skips the final
bookkeeping section but still runs `finally`). -/
def initPreferredBody (q : String) (env : InitAEnv) (st1 : DetailState) : DetailState × Bool :=
  let ab := abortedAt env.abortFrom
  let preferredResult := preferredResultOf q env
  if ab 0 then (st1, true)
  else if preferredResult.length ≠ 0 then
    let st2 := processAndSetResults env.probe (ab 1) st1 preferredResult false
    let st3 := { st2 with loading := false }
    match env.backgroundOutcome with
    | .error _ => (st3, false)
    | .ok allResults =>
      if ab 4 then (st3, true)
      else
        (processAndSetResults env.probe (ab 5) st3
          (allResults.filter fun item => item.title = q) true, false)
  else
    match env.fallbackOutcome with
    | .ok allResults =>
      let filteredResults := allResults.filter fun item => item.title = q
      if filteredResults.length ≠ 0 then
        let st2 := processAndSetResults env.probe (ab 3) st1 filteredResults false
        ({ st2 with loading := false }, false)
      else
        ({ st1 with error := some (noSourceFoundFallbackMsg q), loading := false }, false)
    | .error e =>
      ({ st1 with error := some (searchFailedMsg e), loading := false }, false)

/-- protocol A of `init` (preferred source and id supplied): reset, try-block,
final bookkeeping unless an early return happened, `finally`. -/
def initPreferred (q : String) (env : InitAEnv) (st0 : DetailState) : DetailState :=
  let st1 := initResetState q st0
  let r := initPreferredBody q env st1
  let st2 := if r.2 then r.1 else finalSection q env.favOutcome r.1
  finallyStep (abortedAt env.abortFrom 7) st2

/-- environment of one run of protocol B (standard fan-out): the resource
catalog outcome, the enabled-source configuration, the per-resource wire
responses, the per-resource abort flag observed inside its merge, the probe,
the favorite outcome and the abort flag at `finally`.  `completionOrder` is
the order in which the per-resource callbacks complete (in a real run it is a
permutation of the enabled resources). -/
structure InitBEnv where
  resourcesOutcome : Except String (List ApiSite)
  enabledAll : Bool
  enabledKeys : String → Bool
  completionOrder : List ApiSite
  wire : String → Except String (List Candidate)
  mergeAborted : String → Bool
  probe : String → Option String
  favOutcome : Except String Bool
  finallyAborted : Bool

/-- one fan-out callback of protocol B (lines 337-361): a provider failure is
logged and ignored; a provider returning matches merges them in append mode
and the first one to do so clears the loading flag.  The accumulator carries
(state, firstResultFound, totalResults). -/
def standardStep (q : String) (env : InitBEnv) (acc : DetailState × Bool × ℕ)
    (r : ApiSite) : DetailState × Bool × ℕ :=
  match env.wire r.key with
  | .error _ => acc
  | .ok wire =>
    let results := searchVideoClientFilter q wire
    if results.length ≠ 0 then
      let total := acc.2.2 + results.length
      let st := processAndSetResults env.probe (env.mergeAborted r.key) acc.1 results true
      if acc.2.1 = false then ({ st with loading := false }, true, total)
      else (st, true, total)
    else acc

/-- protocol B of `init` (no preferred source, lines 307-383 plus the shared
tail): fetch the catalog (with the signal), filter to enabled resources, fail
fast when none, fan out one search per resource (each with the signal) whose
merges apply in completion order, then the empty-result check, the final
bookkeeping and `finally`. -/
def initStandard (q : String) (env : InitBEnv) (st0 : DetailState) : DetailState :=
  let st1 := initResetState q st0
  match env.resourcesOutcome with
  | .error e =>
    finallyStep env.finallyAborted
      { st1 with error := some (getResourcesFailedMsg e), loading := false }
  | .ok allResources =>
    let enabledResources :=
      if env.enabledAll then allResources
      else allResources.filter fun r => env.enabledKeys r.key
    if enabledResources.length = 0 then
      finallyStep env.finallyAborted
        { st1 with error := some noEnabledSourcesMsg, loading := false }
    else
      let acc := env.completionOrder.foldl (standardStep q env) (st1, false, 0)
      let st2 := if acc.2.2 = 0
                 then { acc.1 with error := some (noSourceStdMsg q), loading := false }
                 else acc.1
      finallyStep env.finallyAborted (finalSection q env.favOutcome st2)

/-! ### The store's individual state writes, for the failed-set invariant -/

/-- every `set` payload the store ever applies, one constructor per call site:
the `init` reset (136-144), the `processAndSetResults` callback (190-205), the
bare loading clears (238, 268, 351), the error-with-loading writes (271, 278,
328, 368, 377), the bare error write (391, 418), the favorite-status writes
(403, 437, 460), `setDetail` (434), `markSourceAsFailed` (471) and the
`finally` cleanup (424). -/
inductive StoreAction where
  | initReset (q : String)
  | processResults (probe : String → Option String) (aborted : Bool)
      (results : List Candidate) (merge : Bool)
  | setLoadingFalse
  | setErrorLoading (msg : String)
  | setErrorOnly (msg : String)
  | setIsFavorited (b : Bool)
  | selectDetail (d : Candidate)
  | markFailed (source reason : String)
  | finallyCleanup (aborted : Bool)

/-- effect of each state write on the store state. -/
def applyAction (st : DetailState) : StoreAction → DetailState
  | .initReset q => initResetState q st
  | .processResults probe aborted results merge =>
      processAndSetResults probe aborted st results merge
  | .setLoadingFalse => { st with loading := false }
  | .setErrorLoading msg => { st with error := some msg, loading := false }
  | .setErrorOnly msg => { st with error := some msg }
  | .setIsFavorited b => { st with isFavorited := b }
  | .selectDetail d => { st with detail := some d }
  | .markFailed source reason => markSourceAsFailed st source reason
  | .finallyCleanup aborted => finallyStep aborted st

end OrionTV

namespace OrionTV

/-! ## Claim theorems -/

/-- C7: every invocation of the failover-selection operation
(`reportPlaybackFailure`) with a failed sourceKey records that sourceKey into
the session's FailedSourceSet as its first step, so that after the call the
FailedSourceSet contains it. -/
theorem C7_reportPlaybackFailure_records (st : DetailState) (k : String) (i : ℕ)
    (reason : String) : k ∈ ((reportPlaybackFailure st k i reason).1).failedSources := by
  show k ∈ setAdd st.failedSources k
  unfold setAdd
  split
  · next h => exact List.mem_of_elem_eq_true h
  · exact List.mem_append_right _ (List.mem_singleton.mpr rfl)

/-- C6 as stated is false: `init`'s state reset (lines 136-144) does not clear
`failedSources`, so an `init` following a failure does not start with an empty
FailedSourceSet. -/
theorem C6_counterexample :
    (initResetState "X" (markSourceAsFailed initialState "B" "playback stalled")).failedSources
      = ["B"]
    ∧ (initResetState "X" (markSourceAsFailed initialState "B" "playback stalled")).failedSources
      ≠ [] := by
  exact ⟨rfl, by decide⟩

/-- C6 amended: within a session the FailedSourceSet only ever grows — every
store write either preserves it or (for `markSourceAsFailed`) extends it — and
`init` does not reset it: a fresh session inherits the previous session's
failed set, and only the store's construction-time state has an empty one. -/
theorem C6_failedSources_monotone :
    (∀ (st : DetailState) (a : StoreAction),
        st.failedSources ⊆ (applyAction st a).failedSources)
    ∧ initialState.failedSources = []
    ∧ (∀ (q : String) (st : DetailState),
        (initResetState q st).failedSources = st.failedSources) := by
  refine ⟨?_, rfl, fun q st => rfl⟩
  intro st a
  cases a with
  | initReset q => exact fun x h => h
  | processResults probe aborted results merge =>
    show st.failedSources ⊆ (processAndSetResults probe aborted st results merge).failedSources
    unfold processAndSetResults processAndSetResultsUpdate
    split
    · exact fun x h => h
    · exact fun x h => h
  | setLoadingFalse => exact fun x h => h
  | setErrorLoading msg => exact fun x h => h
  | setErrorOnly msg => exact fun x h => h
  | setIsFavorited b => exact fun x h => h
  | selectDetail d => exact fun x h => h
  | markFailed source reason =>
    show st.failedSources ⊆ setAdd st.failedSources source
    unfold setAdd
    split
    · exact fun x h => h
    · exact fun x h => List.mem_append_left _ h
  | finallyCleanup aborted =>
    show st.failedSources ⊆ (finallyStep aborted st).failedSources
    unfold finallyStep
    split
    · exact fun x h => h
    · exact fun x h => h

/-- C2 as stated is false: an incoming batch that itself carries two
candidates with the same sourceKey (possible for an all-sources response with
two same-titled entries from one provider) is merged without in-batch
deduplication, so the resulting set holds two candidates sharing a sourceKey. -/
theorem C2_counterexample :
    ¬ ((processAndSetResultsUpdate initialState
        [⟨1, "X", ["e1"], "srcA", "Site A", "2024", none, none⟩,
         ⟨2, "X", ["e2"], "srcA", "Site A", "2024", none, none⟩]
        true).searchResults.map (fun r => r.source)).Nodup := by
  decide

/-- C2 amended: provided the pre-existing result set and the incoming batch
each carry pairwise-distinct sourceKeys, the append merge (lines 190-205)
yields a set with no two candidates sharing a sourceKey, keeps every
pre-existing candidate unchanged in place (the result's prefix is exactly the
old list), adds only incoming candidates whose sourceKey was not already
present, and adds every such candidate. -/
theorem C2_append_merge (st : DetailState) (incoming : List Candidate)
    (hst : (st.searchResults.map (fun r => r.source)).Nodup)
    (hin : (incoming.map (fun r => r.source)).Nodup) :
    (((processAndSetResultsUpdate st incoming true).searchResults.map
        (fun r => r.source)).Nodup)
    ∧ ((processAndSetResultsUpdate st incoming true).searchResults.take
        st.searchResults.length = st.searchResults)
    ∧ (∀ r ∈ (processAndSetResultsUpdate st incoming true).searchResults,
        r ∈ st.searchResults ∨
          (r ∈ incoming ∧ r.source ∉ st.searchResults.map (fun c => c.source)))
    ∧ (∀ r ∈ incoming, r.source ∉ st.searchResults.map (fun c => c.source) →
        r ∈ (processAndSetResultsUpdate st incoming true).searchResults) := by
  have hres : (processAndSetResultsUpdate st incoming true).searchResults
      = st.searchResults ++ incoming.filter
          (fun r => !((st.searchResults.map (fun c => c.source)).contains r.source)) := rfl
  have hmem_filter : ∀ r ∈ incoming.filter
      (fun r => !((st.searchResults.map (fun c => c.source)).contains r.source)),
      r ∈ incoming ∧ r.source ∉ st.searchResults.map (fun c => c.source) := by
    intro r hr
    have h1 := List.of_mem_filter hr
    refine ⟨List.mem_of_mem_filter hr, ?_⟩
    intro hmem
    rw [Bool.not_eq_eq_eq_not, Bool.not_true, List.contains_eq_any_beq] at h1
    have : (st.searchResults.map (fun c => c.source)).any (r.source == ·) = true := by
      rw [List.any_eq_true]
      exact ⟨r.source, hmem, by simp⟩
    rw [this] at h1
    exact Bool.false_ne_true h1.symm
  refine ⟨?_, ?_, ?_, ?_⟩
  · rw [hres, List.map_append]
    refine List.Nodup.append hst ?_ ?_
    · exact hin.sublist ((List.filter_sublist incoming).map (fun r => r.source))
    · intro x hx1 hx2
      obtain ⟨r, hr, hrx⟩ := List.mem_map.mp hx2
      exact (hmem_filter r hr).2 (hrx ▸ hx1)
  · rw [hres, List.take_left]
  · intro r hr
    rw [hres] at hr
    rcases List.mem_append.mp hr with h | h
    · exact Or.inl h
    · exact Or.inr (hmem_filter r h)
  · intro r hr hfresh
    rw [hres]
    refine List.mem_append_right _ (List.mem_filter.mpr ⟨hr, ?_⟩)
    rw [Bool.not_eq_eq_eq_not, Bool.not_true, List.contains_eq_any_beq]
    rw [List.any_eq_false]
    intro x hx
    intro hbeq
    exact hfresh (by rwa [← eq_of_beq hbeq] at hx)

/-- C2 witness: the amended merge theorem applied to a concrete state holding
one candidate and a concrete fresh batch. -/
theorem C2_witness :
    ((processAndSetResultsUpdate
        { initialState with searchResults := [⟨1, "X", ["e1"], "srcA", "Site A", "2024", none, none⟩] }
        [⟨2, "X", ["e2"], "srcB", "Site B", "2024", none, none⟩]
        true).searchResults.map (fun r => r.source)).Nodup :=
  (C2_append_merge
    { initialState with searchResults := [⟨1, "X", ["e1"], "srcA", "Site A", "2024", none, none⟩] }
    [⟨2, "X", ["e2"], "srcB", "Site B", "2024", none, none⟩]
    (by decide) (by decide)).1

/-! ### Scorer lemmas (claims C4, C9) -/

theorem jsRound_eq_floor (x : ℚ) : jsRound x = ⌊x + 1 / 2⌋ := by
  rw [jsRound, Rat.floor_def']
  exact Rat.floor_def.symm

theorem round2_mono {x y : ℚ} (h : x ≤ y) : round2 x ≤ round2 y := by
  unfold round2
  have h1 : jsRound (x * 100) ≤ jsRound (y * 100) := by
    rw [jsRound_eq_floor, jsRound_eq_floor]
    exact Int.floor_le_floor (by linarith)
  have h2 : ((jsRound (x * 100) : ℚ)) ≤ (jsRound (y * 100) : ℚ) := Int.cast_le.mpr h1
  linarith

theorem specQualityScore_eq (l : String) : specQualityScore l = qualityScore l := by
  unfold specQualityScore specQualityTable qualityScore
  by_cases h1 : l = "4K"
  · subst h1; decide
  by_cases h2 : l = "2K"
  · subst h2; decide
  by_cases h3 : l = "1080p"
  · subst h3; decide
  by_cases h4 : l = "720p"
  · subst h4; decide
  by_cases h5 : l = "480p"
  · subst h5; decide
  by_cases h6 : l = "SD"
  · subst h6; decide
  simp only [List.lookup, beq_eq_false_iff_ne.mpr h1, beq_eq_false_iff_ne.mpr h2,
    beq_eq_false_iff_ne.mpr h3, beq_eq_false_iff_ne.mpr h4, beq_eq_false_iff_ne.mpr h5,
    beq_eq_false_iff_ne.mpr h6, if_neg h1, if_neg h2, if_neg h3, if_neg h4, if_neg h5,
    if_neg h6]
  rfl

theorem specPingScore_eq (p : ℚ) : specPingScore p = pingScore p := by
  unfold specPingScore pingScore
  split_ifs <;> try rfl
  rw [show (1000 : ℚ) - 50 = 950 from by norm_num, div_mul_eq_mul_div]

theorem jsMin_div_ceiling (u : ℚ) : jsMin u 5120 / 5120 = jsMin (u / 5120) 1 := by
  have hiff : u / 5120 ≤ 1 ↔ u ≤ 5120 := div_le_one (by norm_num)
  unfold jsMin
  split_ifs with h1 h2 h2
  · rfl
  · exact absurd (hiff.mpr h1) h2
  · exact absurd (hiff.mp h2) h1
  · norm_num

theorem specSpeedScore_eq (s : String) : specSpeedScore s = speedScore s := by
  unfold specSpeedScore speedScore
  split_ifs
  · rfl
  · cases hm : matchSpeedRegex s with
    | none => rfl
    | some p =>
      obtain ⟨mag, isMB⟩ := p
      cases hp : parseFloatDigitsDots mag with
      | none => simp [hp]
      | some v =>
        simp only [hp, Option.map_some']
        rw [← jsMin_div_ceiling]

theorem calculateVideoScore_some (v : VideoInfo) (ss : ℚ)
    (h : speedScore v.loadSpeed = some ss) :
    calculateVideoScore v
      = some (round2 (qualityScore v.quality * (4/10) + ss * (4/10)
          + pingScore v.pingTime * (2/10))) := by
  unfold calculateVideoScore
  rw [h]

theorem speedScore_of_value (s : String) (a : ℚ) (h : speedValueKBps s = some a) :
    speedScore s = some (jsMin (a / 5120) 1 * 100) := by
  unfold speedValueKBps at h
  unfold speedScore
  split_ifs with hsent
  · rw [Bool.or_eq_true, decide_eq_true_eq, decide_eq_true_eq] at hsent
    rcases hsent with hs | hs
    · rw [hs, show matchSpeedRegex "未知" = none from by decide] at h
      exact Option.noConfusion h
    · rw [hs, show matchSpeedRegex "测量中..." = none from by decide] at h
      exact Option.noConfusion h
  · revert h
    cases hm : matchSpeedRegex s with
    | none => intro h; exact Option.noConfusion h
    | some p =>
      obtain ⟨mag, isMB⟩ := p
      show (match parseFloatDigitsDots mag with
            | none => none
            | some value => some (if isMB then value * 1024 else value)) = some a →
           (match parseFloatDigitsDots mag with
            | none => none
            | some value => some (jsMin ((if isMB then value * 1024 else value) / 5120) 1 * 100))
           = some (jsMin (a / 5120) 1 * 100)
      cases hp : parseFloatDigitsDots mag with
      | none => intro h; exact Option.noConfusion h
      | some v =>
        intro h
        have ha : (if isMB then v * 1024 else v) = a := Option.some.inj h
        show some (jsMin ((if isMB then v * 1024 else v) / 5120) 1 * 100)
            = some (jsMin (a / 5120) 1 * 100)
        rw [ha]

theorem jsMin_mono_left {a b c : ℚ} (h : a ≤ b) : jsMin a c ≤ jsMin b c := by
  unfold jsMin
  split_ifs <;> linarith

theorem pingScore_antitone {p1 p2 : ℚ} (h50 : 50 ≤ p1) (h12 : p1 ≤ p2) :
    pingScore p2 ≤ pingScore p1 := by
  unfold pingScore
  rw [if_neg (show ¬ p1 ≤ 0 by linarith), if_neg (show ¬ p2 ≤ 0 by linarith)]
  have h950 : (0:ℚ) < 1000 - 50 := by norm_num
  by_cases h1b : p1 ≤ 50
  · rw [if_pos h1b]
    split_ifs with h2b h2c
    · exact le_refl _
    · norm_num
    · rw [div_mul_eq_mul_div, div_le_iff₀ h950]
      linarith
  · rw [if_neg h1b, if_neg (show ¬ p2 ≤ 50 by linarith)]
    by_cases h1c : p1 ≥ 1000
    · rw [if_pos h1c, if_pos (show p2 ≥ 1000 by linarith)]
    · rw [if_neg h1c]
      split_ifs with h2c
      · have : (0:ℚ) ≤ (1000 - p1) / (1000 - 50) * 100 := by
          apply mul_nonneg _ (by norm_num)
          apply div_nonneg (by linarith) (by linarith)
        exact this
      · rw [div_mul_eq_mul_div, div_mul_eq_mul_div, div_le_div_iff₀ h950 h950]
        nlinarith

unseal Rat.add Rat.mul Rat.inv Rat.sub in
/-- C4 as stated is false: the loadSpeed string ".KB/s" matches the unit
pattern with magnitude ".", which JS `parseFloat` reads as `NaN`; the
resulting score is `NaN` (no numeric score), not the claimed weighted sum in
which an unparsable magnitude contributes a speed score of 30. -/
theorem C4_counterexample :
    calculateVideoScore ⟨"1080p", ".KB/s", 100⟩ = none
    ∧ calculateVideoScore ⟨"1080p", ".KB/s", 100⟩
        ≠ some (specVideoScoreClaimed ⟨"1080p", ".KB/s", 100⟩) := by
  constructor
  · decide
  · decide

/-- C4 amended: for every input, the video score equals the spec's weighted
sum `0.4 * quality + 0.4 * speed + 0.2 * ping` rounded to two decimals, with
the quality table, the 5120 KB/s clamp-and-scale speed component and the
piecewise-linear ping component as claimed — except that the magnitude of a
matched speed pattern is parsed with JS `parseFloat` semantics (longest
`digits [. digits]` prefix, e.g. "1.2.3" parses as 1.2), and a magnitude
containing no digit parses to `NaN`, which propagates so that the whole score
is `NaN` rather than using 30. -/
theorem C4_videoScore_spec (v : VideoInfo) : calculateVideoScore v = specVideoScore v := by
  unfold specVideoScore
  rw [specSpeedScore_eq]
  cases h : speedScore v.loadSpeed with
  | none =>
    unfold calculateVideoScore
    rw [h]
    rfl
  | some ss =>
    rw [calculateVideoScore_some v ss h, Option.map_some']
    congr 1
    rw [specQualityScore_eq, specPingScore_eq]
    ring_nf

/-- C9: the video scorer is deterministic, and monotone in each input holding
the other two fixed: a quality label higher in the fixed table, a larger
parsed load speed, or a larger ping (above the 50 ms full-score point) never
moves the score the wrong way.  (Speed monotonicity is stated via the parsed
KB/s magnitude, and holds with no ceiling restriction since the clamp is
monotone; scores are compared whenever both are defined, i.e. not `NaN`.) -/
theorem C9_score_deterministic_monotone :
    (∀ v w : VideoInfo, v = w → calculateVideoScore v = calculateVideoScore w)
    ∧ (∀ (q1 q2 sp : String) (p s1 s2 : ℚ),
        qualityScore q1 ≤ qualityScore q2 →
        calculateVideoScore ⟨q1, sp, p⟩ = some s1 →
        calculateVideoScore ⟨q2, sp, p⟩ = some s2 → s1 ≤ s2)
    ∧ (∀ (q sp1 sp2 : String) (p a b s1 s2 : ℚ),
        speedValueKBps sp1 = some a → speedValueKBps sp2 = some b → a ≤ b →
        calculateVideoScore ⟨q, sp1, p⟩ = some s1 →
        calculateVideoScore ⟨q, sp2, p⟩ = some s2 → s1 ≤ s2)
    ∧ (∀ (q sp : String) (p1 p2 s1 s2 : ℚ),
        50 ≤ p1 → p1 ≤ p2 →
        calculateVideoScore ⟨q, sp, p1⟩ = some s1 →
        calculateVideoScore ⟨q, sp, p2⟩ = some s2 → s2 ≤ s1) := by
  refine ⟨fun v w h => by rw [h], ?_, ?_, ?_⟩
  · intro q1 q2 sp p s1 s2 hq h1 h2
    cases hss : speedScore sp with
    | none =>
      rw [calculateVideoScore, hss] at h1
      exact Option.noConfusion h1
    | some ss =>
      rw [calculateVideoScore_some ⟨q1, sp, p⟩ ss hss] at h1
      rw [calculateVideoScore_some ⟨q2, sp, p⟩ ss hss] at h2
      rw [← Option.some.inj h1, ← Option.some.inj h2]
      exact round2_mono (by dsimp only; linarith)
  · intro q sp1 sp2 p a b s1 s2 ha hb hab h1 h2
    have hss1 := speedScore_of_value sp1 a ha
    have hss2 := speedScore_of_value sp2 b hb
    rw [calculateVideoScore_some ⟨q, sp1, p⟩ _ hss1] at h1
    rw [calculateVideoScore_some ⟨q, sp2, p⟩ _ hss2] at h2
    rw [← Option.some.inj h1, ← Option.some.inj h2]
    have hm : jsMin (a / 5120) 1 ≤ jsMin (b / 5120) 1 :=
      jsMin_mono_left (by linarith)
    exact round2_mono (by dsimp only; linarith)
  · intro q sp p1 p2 s1 s2 h50 h12 h1 h2
    cases hss : speedScore sp with
    | none =>
      rw [calculateVideoScore, hss] at h1
      exact Option.noConfusion h1
    | some ss =>
      rw [calculateVideoScore_some ⟨q, sp, p1⟩ ss hss] at h1
      rw [calculateVideoScore_some ⟨q, sp, p2⟩ ss hss] at h2
      rw [← Option.some.inj h1, ← Option.some.inj h2]
      have hp := pingScore_antitone h50 h12
      exact round2_mono (by dsimp only; linarith)

unseal Rat.add Rat.mul Rat.inv Rat.sub in
/-- C9 witness: the determinism and the three monotonicity parts applied at
concrete measurements (scores 64 ≤ 70, 80 ≤ 90, 60 ≤ 80). -/
theorem C9_witness :
    calculateVideoScore ⟨"4K", "2560KB/s", 50⟩ = calculateVideoScore ⟨"4K", "2560KB/s", 50⟩
    ∧ (64 : ℚ) ≤ 70 ∧ (80 : ℚ) ≤ 90 ∧ (60 : ℚ) ≤ 80 :=
  ⟨C9_score_deterministic_monotone.1 _ _ rfl,
   C9_score_deterministic_monotone.2.1 "720p" "1080p" "2560KB/s" 50 64 70
     (by decide) (by decide) (by decide),
   C9_score_deterministic_monotone.2.2.1 "4K" "2560KB/s" "3840KB/s" 50 2560 3840 80 90
     (by decide) (by decide) (by decide) (by decide) (by decide),
   C9_score_deterministic_monotone.2.2.2 "4K" "2560KB/s" 50 1000 80 60
     (by decide) (by decide) (by decide) (by decide)⟩

/-! ### Failover selector lemmas (claims C1, C5) -/

theorem mem_of_head?_eq_some {α : Type} {l : List α} {a : α} (h : l.head? = some a) :
    a ∈ l := by
  cases l with
  | nil => exact Option.noConfusion h
  | cons x t => exact (Option.some.inj h) ▸ List.mem_cons_self x t

theorem mem_availableSources_iff {results : List Candidate} {failed : List String}
    {cur : String} {idx : ℕ} {c : Candidate} :
    c ∈ availableSources results failed cur idx ↔
      c ∈ results ∧ (c.source ≠ cur ∧ c.source ∉ failed ∧ idx < c.episodes.length) := by
  unfold availableSources
  rw [List.mem_filter]
  simp only [Bool.and_eq_true, bne_iff_ne, Bool.not_eq_true', List.elem_eq_mem,
    decide_eq_false_iff_not, decide_eq_true_eq, and_assoc]

/-- C1: the failover selector never returns the failed (current) sourceKey,
never returns a sourceKey already in the FailedSourceSet, and never returns a
candidate lacking an episode at the requested index; and it returns `null`
exactly when no candidate of the result set satisfies all three conditions. -/
theorem C1_failover_filter (results : List Candidate) (failed : List String)
    (cur : String) (idx : ℕ) :
    (∀ c, getNextAvailableSource results failed cur idx = some c →
        c.source ≠ cur ∧ c.source ∉ failed ∧ idx < c.episodes.length)
    ∧ (getNextAvailableSource results failed cur idx = none ↔
        ∀ c ∈ results, ¬ (c.source ≠ cur ∧ c.source ∉ failed ∧ idx < c.episodes.length)) := by
  constructor
  · intro c hc
    unfold getNextAvailableSource at hc
    rcases Decidable.em ((availableSources results failed cur idx).length = 0) with h0 | h0
    · rw [if_pos h0] at hc
      exact Option.noConfusion hc
    · rw [if_neg h0] at hc
      have hmem : c ∈ (availableSources results failed cur idx).mergeSort sourceLe :=
        mem_of_head?_eq_some hc
      have hmem2 : c ∈ availableSources results failed cur idx :=
        List.mem_mergeSort.mp hmem
      exact (mem_availableSources_iff.mp hmem2).2
  · unfold getNextAvailableSource
    split_ifs with h0
    · simp only [true_iff]
      have hnil : availableSources results failed cur idx = [] :=
        List.length_eq_zero.mp h0
      intro c hcr hcond
      have : c ∈ availableSources results failed cur idx :=
        mem_availableSources_iff.mpr ⟨hcr, hcond⟩
      rw [hnil] at this
      exact List.not_mem_nil c this
    · constructor
      · intro hnone
        rw [List.head?_eq_none_iff] at hnone
        have hlen : ((availableSources results failed cur idx).mergeSort sourceLe).length
            = (availableSources results failed cur idx).length :=
          List.length_mergeSort _
        rw [hnone] at hlen
        exact absurd hlen.symm h0
      · intro hall
        exfalso
        apply h0
        rw [List.length_eq_zero, List.eq_nil_iff_forall_not_mem]
        intro c hc
        obtain ⟨hcr, hcond⟩ := mem_availableSources_iff.mp hc
        exact hall c hcr hcond

/-- C1 witness: the filter theorem applied at a concrete session: one viable
alternative remains and is returned; it differs from the failed source, is not
in the failed set, and has an episode at the index. -/
theorem C1_witness :
    (⟨1, "X", ["e1", "e2"], "A", "Site A", "2024", none, none⟩ : Candidate).source ≠ "B"
    ∧ (⟨1, "X", ["e1", "e2"], "A", "Site A", "2024", none, none⟩ : Candidate).source ∉ ["B", "C"]
    ∧ 1 < (⟨1, "X", ["e1", "e2"], "A", "Site A", "2024", none, none⟩ : Candidate).episodes.length :=
  (C1_failover_filter
      [⟨1, "X", ["e1", "e2"], "A", "Site A", "2024", none, none⟩,
       ⟨2, "X", ["e1"], "C", "Site C", "2024", none, none⟩]
      ["B", "C"] "B" 1).1
    ⟨1, "X", ["e1", "e2"], "A", "Site A", "2024", none, none⟩
    (by
      unfold getNextAvailableSource
      rw [show availableSources
            [⟨1, "X", ["e1", "e2"], "A", "Site A", "2024", none, none⟩,
             ⟨2, "X", ["e1"], "C", "Site C", "2024", none, none⟩]
            ["B", "C"] "B" 1
          = [⟨1, "X", ["e1", "e2"], "A", "Site A", "2024", none, none⟩] from by decide]
      simp)

/-! ### Stable-sort machinery for the ranking claim C5.  The JS comparator is
only a consistent ordering on uniformly-measured candidate sets; on such sets
it agrees pointwise with a rank projection, so the sort can be exchanged for
the sort by rank, for which Lean's stable `mergeSort` lemmas apply. -/

theorem merge_congr {α : Type} (le₁ le₂ : α → α → Bool) :
    ∀ (xs ys : List α), (∀ a ∈ xs, ∀ b ∈ ys, le₁ a b = le₂ a b) →
      List.merge xs ys le₁ = List.merge xs ys le₂ := by
  intro xs
  induction xs with
  | nil => intro ys h; simp
  | cons x xs ihx =>
    intro ys
    induction ys with
    | nil => intro h; simp
    | cons y ys ihy =>
      intro h
      show List.merge (x :: xs) (y :: ys) le₁ = List.merge (x :: xs) (y :: ys) le₂
      unfold List.merge
      rw [h x (List.mem_cons_self x xs) y (List.mem_cons_self y ys)]
      split
      · rw [ihx (y :: ys) (fun a ha b hb => h a (List.mem_cons_of_mem x ha) b hb)]
      · rw [ihy (fun a ha b hb => h a ha b (List.mem_cons_of_mem y hb))]

theorem mergeSort_congr {α : Type} (le₁ le₂ : α → α → Bool) :
    ∀ (l : List α), (∀ a ∈ l, ∀ b ∈ l, le₁ a b = le₂ a b) →
      l.mergeSort le₁ = l.mergeSort le₂
  | [] => fun _ => by simp
  | [a] => fun _ => by simp
  | a :: b :: xs => fun h => by
    have hl1 : (List.splitInTwo ⟨a :: b :: xs, rfl⟩).1.1.length < xs.length + 1 + 1 := by
      simp [List.splitInTwo_fst]
      omega
    have hl2 : (List.splitInTwo ⟨a :: b :: xs, rfl⟩).2.1.length < xs.length + 1 + 1 := by
      simp [List.splitInTwo_snd]
      omega
    have hfst : ∀ c ∈ (List.splitInTwo ⟨a :: b :: xs, rfl⟩).1.1, c ∈ a :: b :: xs := by
      intro c hc
      rw [List.splitInTwo_fst] at hc
      exact List.mem_of_mem_take hc
    have hsnd : ∀ c ∈ (List.splitInTwo ⟨a :: b :: xs, rfl⟩).2.1, c ∈ a :: b :: xs := by
      intro c hc
      rw [List.splitInTwo_snd] at hc
      exact List.mem_of_mem_drop hc
    rw [List.mergeSort, List.mergeSort]
    rw [mergeSort_congr le₁ le₂ (List.splitInTwo ⟨a :: b :: xs, rfl⟩).1.1
        (fun p hp q hq => h p (hfst p hp) q (hfst q hq)),
      mergeSort_congr le₁ le₂ (List.splitInTwo ⟨a :: b :: xs, rfl⟩).2.1
        (fun p hp q hq => h p (hsnd p hp) q (hsnd q hq))]
    apply merge_congr
    intro p hp q hq
    exact h p (hfst p (List.mem_mergeSort.mp hp)) q (hsnd q (List.mem_mergeSort.mp hq))
termination_by l => l.length

theorem rankLe_trans {α β : Type} [LinearOrder β] (rank : α → β) :
    ∀ (x y z : α), (fun a b => decide (rank b ≤ rank a)) x y = true →
      (fun a b => decide (rank b ≤ rank a)) y z = true →
      (fun a b => decide (rank b ≤ rank a)) x z = true := by
  intro x y z hxy hyz
  simp only [decide_eq_true_eq] at hxy hyz ⊢
  exact le_trans hyz hxy

theorem rankLe_total {α β : Type} [LinearOrder β] (rank : α → β) :
    ∀ (x y : α), ((fun a b => decide (rank b ≤ rank a)) x y
      || (fun a b => decide (rank b ≤ rank a)) y x) = true := by
  intro x y
  rw [Bool.or_eq_true]
  simp only [decide_eq_true_eq]
  exact le_total (rank y) (rank x)

/-- the head of the stable sort by descending rank is a maximum of the list. -/
theorem head_mergeSort_max {α β : Type} [LinearOrder β] (rank : α → β) (l : List α) (c : α)
    (h : (l.mergeSort (fun a b => decide (rank b ≤ rank a))).head? = some c) :
    c ∈ l ∧ ∀ d ∈ l, rank d ≤ rank c := by
  have hmem : c ∈ l.mergeSort (fun a b => decide (rank b ≤ rank a)) := mem_of_head?_eq_some h
  refine ⟨List.mem_mergeSort.mp hmem, ?_⟩
  intro d hd
  have hsorted := List.sorted_mergeSort (rankLe_trans rank) (rankLe_total rank) l
  cases hms : l.mergeSort (fun a b => decide (rank b ≤ rank a)) with
  | nil => rw [hms] at h; exact Option.noConfusion h
  | cons x t =>
    rw [hms] at h hsorted
    have hcx : x = c := Option.some.inj h
    subst hcx
    have hd2 : d ∈ x :: t := by
      rw [← hms]
      exact List.mem_mergeSort.mpr hd
    rcases List.mem_cons.mp hd2 with rfl | hd3
    · exact le_refl _
    · have := List.rel_of_pairwise_cons hsorted hd3
      simpa using this

/-- stability: the head of the stable sort by descending rank is the EARLIEST
maximum — everything before it in the input has strictly smaller rank. -/
theorem head_mergeSort_first {α β : Type} [LinearOrder β] (rank : α → β) (l : List α) :
    ∀ (c : α), (l.mergeSort (fun a b => decide (rank b ≤ rank a))).head? = some c →
      ∃ l1 l2, l = l1 ++ c :: l2 ∧ ∀ d ∈ l1, rank d < rank c := by
  induction l with
  | nil => intro c h; rw [List.mergeSort_nil] at h; exact Option.noConfusion h
  | cons a l2 IH =>
    intro c h
    obtain ⟨L1, L2, e1, e2, hL1⟩ :=
      List.mergeSort_cons (rankLe_trans rank) (rankLe_total rank) a l2
    cases L1 with
    | nil =>
      rw [e1] at h
      have hac : a = c := by simpa using h
      subst hac
      exact ⟨[], l2, rfl, fun d hd => absurd hd (List.not_mem_nil d)⟩
    | cons x L12 =>
      rw [e1] at h
      have hcx : x = c := by simpa using h
      subst hcx
      have h2 : (l2.mergeSort (fun a b => decide (rank b ≤ rank a))).head? = some x := by
        rw [e2]
        rfl
      obtain ⟨m1, m2, hm, hlt⟩ := IH x h2
      have hax : rank a < rank x := by
        have hx := hL1 x (List.mem_cons_self x L12)
        simp only [Bool.not_eq_true', decide_eq_false_iff_not] at hx
        exact not_le.mp hx
      refine ⟨a :: m1, m2, by simp [hm], ?_⟩
      intro d hd
      rcases List.mem_cons.mp hd with rfl | hd2
      · exact hax
      · exact hlt d hd2

theorem scoreRank_eq {c : Candidate} {v : VideoInfo} {sc : ℚ}
    (hv : c.videoInfo = some v) (hs : calculateVideoScore v = some sc) :
    scoreRank c = sc := by
  unfold scoreRank
  rw [hv]
  simp [hs]

theorem sourceCmp_scored {a b : Candidate} {va vb : VideoInfo} {sa sb : ℚ}
    (hva : a.videoInfo = some va) (hvb : b.videoInfo = some vb)
    (hsa : calculateVideoScore va = some sa) (hsb : calculateVideoScore vb = some sb) :
    sourceCmp a b = sb - sa := by
  unfold sourceCmp
  rw [hva, hvb]
  show (match calculateVideoScore va, calculateVideoScore vb with
        | some sa1, some sb1 => sb1 - sa1
        | _, _ => 0) = sb - sa
  rw [hsa, hsb]

theorem sourceCmp_unscored {a b : Candidate}
    (h : a.videoInfo = none ∨ b.videoInfo = none) :
    sourceCmp a b = (resRank b : ℚ) - (resRank a : ℚ) := by
  unfold sourceCmp resRank
  rcases h with h | h
  · rw [h]
  · cases hv : a.videoInfo with
    | none => rfl
    | some va => rw [h]

theorem sourceLe_eq_scoreRank {a b : Candidate}
    (ha : ∃ v s, a.videoInfo = some v ∧ calculateVideoScore v = some s)
    (hb : ∃ v s, b.videoInfo = some v ∧ calculateVideoScore v = some s) :
    sourceLe a b = decide (scoreRank b ≤ scoreRank a) := by
  obtain ⟨va, sa, hva, hsa⟩ := ha
  obtain ⟨vb, sb, hvb, hsb⟩ := hb
  unfold sourceLe
  rw [sourceCmp_scored hva hvb hsa hsb, scoreRank_eq hvb hsb, scoreRank_eq hva hsa]
  exact decide_eq_decide.mpr sub_nonpos

theorem sourceLe_eq_resRank {a b : Candidate}
    (h : a.videoInfo = none ∨ b.videoInfo = none) :
    sourceLe a b = decide (resRank b ≤ resRank a) := by
  unfold sourceLe
  rw [sourceCmp_unscored h]
  apply decide_eq_decide.mpr
  rw [sub_nonpos, Nat.cast_le]

unseal Rat.add Rat.mul Rat.inv Rat.sub in
/-- C5 amended: on uniformly-measured viable sets the claim holds — when the
viable alternatives all carry a defined quality score, the selector returns a
candidate of maximal VideoScorer score, and — by stability of the sort — the
earliest-arrived among the maximal ones; when none of the alternatives
carries a quality measurement, the same holds for the fixed resolution-label
priority (1080>720>480>360>unranked); and in the spec's scenario (B fails at
episode index 4, A has 5 episodes and score 80, C has 3 episodes and score
90) it returns A, C being excluded for lacking episode 5.  On mixed
scored/unscored sets the comparator is intransitive and the claimed pairwise
ordering fails (see the C5 counterexample). -/
theorem C5_failover_ranking :
    (∀ (results : List Candidate) (failed : List String) (cur : String) (idx : ℕ)
        (c : Candidate),
        (∀ d ∈ availableSources results failed cur idx,
            ∃ v s, d.videoInfo = some v ∧ calculateVideoScore v = some s) →
        getNextAvailableSource results failed cur idx = some c →
        (∀ d ∈ availableSources results failed cur idx, scoreRank d ≤ scoreRank c)
        ∧ ∃ l1 l2, availableSources results failed cur idx = l1 ++ c :: l2
            ∧ ∀ d ∈ l1, scoreRank d < scoreRank c)
    ∧ (∀ (results : List Candidate) (failed : List String) (cur : String) (idx : ℕ)
        (c : Candidate),
        (∀ d ∈ availableSources results failed cur idx, d.videoInfo = none) →
        getNextAvailableSource results failed cur idx = some c →
        (∀ d ∈ availableSources results failed cur idx, resRank d ≤ resRank c)
        ∧ ∃ l1 l2, availableSources results failed cur idx = l1 ++ c :: l2
            ∧ ∀ d ∈ l1, resRank d < resRank c)
    ∧ (calculateVideoScore ⟨"4K", "2560KB/s", 50⟩ = some 80
       ∧ calculateVideoScore ⟨"4K", "3840KB/s", 50⟩ = some 90
       ∧ getNextAvailableSource
           [⟨1, "X", ["e1", "e2", "e3", "e4", "e5"], "A", "Site A", "2024",
              some ⟨"4K", "2560KB/s", 50⟩, none⟩,
            ⟨2, "X", ["e1", "e2", "e3", "e4", "e5"], "B", "Site B", "2024", none, none⟩,
            ⟨3, "X", ["e1", "e2", "e3"], "C", "Site C", "2024",
              some ⟨"4K", "3840KB/s", 50⟩, none⟩]
           ["B"] "B" 4
         = some ⟨1, "X", ["e1", "e2", "e3", "e4", "e5"], "A", "Site A", "2024",
              some ⟨"4K", "2560KB/s", 50⟩, none⟩) := by
  refine ⟨?_, ?_, by decide, by decide, ?_⟩
  · intro results failed cur idx c hs hc
    unfold getNextAvailableSource at hc
    rcases Decidable.em ((availableSources results failed cur idx).length = 0) with h0 | h0
    · rw [if_pos h0] at hc
      exact Option.noConfusion hc
    · rw [if_neg h0] at hc
      rw [mergeSort_congr sourceLe (fun a b => decide (scoreRank b ≤ scoreRank a)) _
          (fun a ha b hb => sourceLe_eq_scoreRank (hs a ha) (hs b hb))] at hc
      exact ⟨(head_mergeSort_max scoreRank _ c hc).2, head_mergeSort_first scoreRank _ c hc⟩
  · intro results failed cur idx c hs hc
    unfold getNextAvailableSource at hc
    rcases Decidable.em ((availableSources results failed cur idx).length = 0) with h0 | h0
    · rw [if_pos h0] at hc
      exact Option.noConfusion hc
    · rw [if_neg h0] at hc
      rw [mergeSort_congr sourceLe (fun a b => decide (resRank b ≤ resRank a)) _
          (fun a ha b hb => sourceLe_eq_resRank (Or.inl (hs a ha)))] at hc
      exact ⟨(head_mergeSort_max resRank _ c hc).2, head_mergeSort_first resRank _ c hc⟩
  · unfold getNextAvailableSource
    rw [show availableSources
          [⟨1, "X", ["e1", "e2", "e3", "e4", "e5"], "A", "Site A", "2024",
             some ⟨"4K", "2560KB/s", 50⟩, none⟩,
           ⟨2, "X", ["e1", "e2", "e3", "e4", "e5"], "B", "Site B", "2024", none, none⟩,
           ⟨3, "X", ["e1", "e2", "e3"], "C", "Site C", "2024",
             some ⟨"4K", "3840KB/s", 50⟩, none⟩]
          ["B"] "B" 4
        = [⟨1, "X", ["e1", "e2", "e3", "e4", "e5"], "A", "Site A", "2024",
             some ⟨"4K", "2560KB/s", 50⟩, none⟩] from by decide]
    simp

unseal Rat.add Rat.mul Rat.inv Rat.sub in
/-- C5 witness: the scored ranking part applied to a concrete session in which
one scored alternative survives the filter and is returned as the maximum. -/
theorem C5_witness :
    (∀ d ∈ availableSources
        [⟨1, "X", ["e1", "e2", "e3", "e4", "e5"], "A", "Site A", "2024",
           some ⟨"4K", "2560KB/s", 50⟩, none⟩,
         ⟨3, "X", ["e1", "e2", "e3"], "C", "Site C", "2024",
           some ⟨"4K", "3840KB/s", 50⟩, none⟩] [] "B" 4,
        scoreRank d ≤ scoreRank ⟨1, "X", ["e1", "e2", "e3", "e4", "e5"], "A", "Site A",
          "2024", some ⟨"4K", "2560KB/s", 50⟩, none⟩)
    ∧ ∃ l1 l2, availableSources
        [⟨1, "X", ["e1", "e2", "e3", "e4", "e5"], "A", "Site A", "2024",
           some ⟨"4K", "2560KB/s", 50⟩, none⟩,
         ⟨3, "X", ["e1", "e2", "e3"], "C", "Site C", "2024",
           some ⟨"4K", "3840KB/s", 50⟩, none⟩] [] "B" 4
        = l1 ++ (⟨1, "X", ["e1", "e2", "e3", "e4", "e5"], "A", "Site A", "2024",
            some ⟨"4K", "2560KB/s", 50⟩, none⟩ : Candidate) :: l2
        ∧ ∀ d ∈ l1, scoreRank d < scoreRank ⟨1, "X", ["e1", "e2", "e3", "e4", "e5"], "A",
            "Site A", "2024", some ⟨"4K", "2560KB/s", 50⟩, none⟩ :=
  C5_failover_ranking.1
    [⟨1, "X", ["e1", "e2", "e3", "e4", "e5"], "A", "Site A", "2024",
       some ⟨"4K", "2560KB/s", 50⟩, none⟩,
     ⟨3, "X", ["e1", "e2", "e3"], "C", "Site C", "2024",
       some ⟨"4K", "3840KB/s", 50⟩, none⟩] [] "B" 4
    ⟨1, "X", ["e1", "e2", "e3", "e4", "e5"], "A", "Site A", "2024",
       some ⟨"4K", "2560KB/s", 50⟩, none⟩
    (by
      intro d hd
      rw [show availableSources
            [⟨1, "X", ["e1", "e2", "e3", "e4", "e5"], "A", "Site A", "2024",
               some ⟨"4K", "2560KB/s", 50⟩, none⟩,
             ⟨3, "X", ["e1", "e2", "e3"], "C", "Site C", "2024",
               some ⟨"4K", "3840KB/s", 50⟩, none⟩] [] "B" 4
          = [⟨1, "X", ["e1", "e2", "e3", "e4", "e5"], "A", "Site A", "2024",
               some ⟨"4K", "2560KB/s", 50⟩, none⟩] from by decide] at hd
      rw [List.mem_singleton] at hd
      subst hd
      exact ⟨⟨"4K", "2560KB/s", 50⟩, 80, rfl, by decide⟩)
    (by
      unfold getNextAvailableSource
      rw [show availableSources
            [⟨1, "X", ["e1", "e2", "e3", "e4", "e5"], "A", "Site A", "2024",
               some ⟨"4K", "2560KB/s", 50⟩, none⟩,
             ⟨3, "X", ["e1", "e2", "e3"], "C", "Site C", "2024",
               some ⟨"4K", "3840KB/s", 50⟩, none⟩] [] "B" 4
          = [⟨1, "X", ["e1", "e2", "e3", "e4", "e5"], "A", "Site A", "2024",
               some ⟨"4K", "2560KB/s", 50⟩, none⟩] from by decide]
      simp)

unseal Rat.add Rat.mul Rat.inv Rat.sub in
/-- C5 as stated is false on mixed sets: with scored A (score 80, resolution
"1080"), scored B (score 90, no resolution) and unscored C (resolution
"720") all viable, the claim's pairwise rule orders the mixed pair A–C by
resolution priority — A (1080) strictly above C (720), and even the code's
own comparator refuses to place C before A — yet the selector returns C, so
the returned candidate is not top-ranked under the claimed ordering.  (The
comparator is intransitive here: B beats A on score, C beats B on resolution
priority, A beats C on resolution priority.) -/
theorem C5_counterexample :
    (⟨1, "X", ["e1"], "A", "Site A", "2024", some ⟨"4K", "2560KB/s", 50⟩,
        some "1080"⟩ : Candidate)
      ∈ availableSources
          [⟨1, "X", ["e1"], "A", "Site A", "2024", some ⟨"4K", "2560KB/s", 50⟩, some "1080"⟩,
           ⟨2, "X", ["e1"], "B", "Site B", "2024", some ⟨"4K", "3840KB/s", 50⟩, none⟩,
           ⟨3, "X", ["e1"], "C", "Site C", "2024", none, some "720"⟩] [] "Z" 0
    ∧ (⟨3, "X", ["e1"], "C", "Site C", "2024", none, some "720"⟩ : Candidate).videoInfo = none
    ∧ resolutionPriority "720" < resolutionPriority "1080"
    ∧ sourceLe ⟨3, "X", ["e1"], "C", "Site C", "2024", none, some "720"⟩
        ⟨1, "X", ["e1"], "A", "Site A", "2024", some ⟨"4K", "2560KB/s", 50⟩, some "1080"⟩
      = false
    ∧ getNextAvailableSource
        [⟨1, "X", ["e1"], "A", "Site A", "2024", some ⟨"4K", "2560KB/s", 50⟩, some "1080"⟩,
         ⟨2, "X", ["e1"], "B", "Site B", "2024", some ⟨"4K", "3840KB/s", 50⟩, none⟩,
         ⟨3, "X", ["e1"], "C", "Site C", "2024", none, some "720"⟩] [] "Z" 0
      = some ⟨3, "X", ["e1"], "C", "Site C", "2024", none, some "720"⟩ := by
  have h1 : sourceLe
      ⟨1, "X", ["e1"], "A", "Site A", "2024", some ⟨"4K", "2560KB/s", 50⟩, some "1080"⟩
      ⟨2, "X", ["e1"], "B", "Site B", "2024", some ⟨"4K", "3840KB/s", 50⟩, none⟩
      = false := by decide
  have h2 : sourceLe
      ⟨2, "X", ["e1"], "B", "Site B", "2024", some ⟨"4K", "3840KB/s", 50⟩, none⟩
      ⟨3, "X", ["e1"], "C", "Site C", "2024", none, some "720"⟩
      = false := by decide
  have hsort : ([⟨1, "X", ["e1"], "A", "Site A", "2024", some ⟨"4K", "2560KB/s", 50⟩,
          some "1080"⟩,
        ⟨2, "X", ["e1"], "B", "Site B", "2024", some ⟨"4K", "3840KB/s", 50⟩, none⟩,
        ⟨3, "X", ["e1"], "C", "Site C", "2024", none, some "720"⟩] : List Candidate).mergeSort
          sourceLe
      = [⟨3, "X", ["e1"], "C", "Site C", "2024", none, some "720"⟩,
         ⟨2, "X", ["e1"], "B", "Site B", "2024", some ⟨"4K", "3840KB/s", 50⟩, none⟩,
         ⟨1, "X", ["e1"], "A", "Site A", "2024", some ⟨"4K", "2560KB/s", 50⟩, some "1080"⟩] := by
    simp [List.mergeSort, List.splitInTwo_fst, List.splitInTwo_snd, List.merge, h1, h2]
  refine ⟨by decide, rfl, by decide, by decide, ?_⟩
  unfold getNextAvailableSource
  rw [show availableSources
        [⟨1, "X", ["e1"], "A", "Site A", "2024", some ⟨"4K", "2560KB/s", 50⟩, some "1080"⟩,
         ⟨2, "X", ["e1"], "B", "Site B", "2024", some ⟨"4K", "3840KB/s", 50⟩, none⟩,
         ⟨3, "X", ["e1"], "C", "Site C", "2024", none, some "720"⟩] [] "Z" 0
      = [⟨1, "X", ["e1"], "A", "Site A", "2024", some ⟨"4K", "2560KB/s", 50⟩, some "1080"⟩,
         ⟨2, "X", ["e1"], "B", "Site B", "2024", some ⟨"4K", "3840KB/s", 50⟩, none⟩,
         ⟨3, "X", ["e1"], "C", "Site C", "2024", none, some "720"⟩] from by decide]
  simp [hsort]

/-! ### Orchestrator bookkeeping lemmas (claims C3, C8, C10) -/

theorem favoriteStep_fields (fav : Except String Bool) (st : DetailState) :
    (favoriteStep fav st).searchResults = st.searchResults
    ∧ (favoriteStep fav st).detail = st.detail
    ∧ (favoriteStep fav st).loading = st.loading
    ∧ (favoriteStep fav st).allSourcesLoaded = st.allSourcesLoaded
    ∧ (favoriteStep fav st).failedSources = st.failedSources
    ∧ (favoriteStep fav st).error = st.error := by
  unfold favoriteStep
  rcases hd : st.detail with _ | d <;> rcases fav with e | b <;>
    refine ⟨rfl, ?_, rfl, rfl, rfl, rfl⟩ <;> first | rfl | exact hd

theorem finalSection_fields (q : String) (fav : Except String Bool) (st : DetailState) :
    (finalSection q fav st).searchResults = st.searchResults
    ∧ (finalSection q fav st).detail = st.detail
    ∧ (finalSection q fav st).loading = st.loading
    ∧ (finalSection q fav st).allSourcesLoaded = st.allSourcesLoaded
    ∧ (finalSection q fav st).failedSources = st.failedSources := by
  unfold finalSection
  obtain ⟨h1, h2, h3, h4, h5, h6⟩ := favoriteStep_fields fav
    (if st.searchResults.length = 0 ∧ st.error = none
     then { st with error := some (noResultsFinalMsg q) } else st)
  rw [h1, h2, h3, h4, h5]
  split_ifs <;> exact ⟨rfl, rfl, rfl, rfl, rfl⟩

theorem finalSection_error_of (q : String) (fav : Except String Bool) (st : DetailState)
    (h : ¬ (st.searchResults.length = 0 ∧ st.error = none)) :
    (finalSection q fav st).error = st.error := by
  unfold finalSection
  rw [if_neg h]
  exact (favoriteStep_fields fav st).2.2.2.2.2

theorem favoriteStep_sources (fav : Except String Bool) (st : DetailState) :
    (favoriteStep fav st).sources = st.sources := by
  unfold favoriteStep
  split <;> (try split) <;> rfl

theorem finalSection_sources (q : String) (fav : Except String Bool) (st : DetailState) :
    (finalSection q fav st).sources = st.sources := by
  unfold finalSection
  rw [favoriteStep_sources]
  split <;> rfl

theorem finallyStep_false (st : DetailState) :
    finallyStep false st = { st with loading := false, allSourcesLoaded := true } := rfl

theorem finallyStep_true (st : DetailState) : finallyStep true st = st := rfl

theorem abortedAt_none (k : ℕ) : abortedAt none k = false := rfl

/-- C8: in the preferred-source protocol, when the preferred search returns
zero candidates or fails, a synchronous all-sources fallback runs; its results
are filtered to exact title match; with at least one match the (resolution-
enriched) matches become the result set, loading clears and no error is set;
with no match the "no source found" error is set and loading clears. -/
theorem C8_preferred_fallback (q : String) (env : InitAEnv) (st0 : DetailState)
    (hab : env.abortFrom = none)
    (hpref : preferredResultOf q env = [])
    (allResults : List Candidate)
    (hfb : env.fallbackOutcome = Except.ok allResults) :
    ((allResults.filter fun item => item.title = q) ≠ [] →
      (initPreferred q env st0).searchResults
        = (allResults.filter fun item => item.title = q).map (enrichResult env.probe)
      ∧ (initPreferred q env st0).loading = false
      ∧ (initPreferred q env st0).error = none)
    ∧ ((allResults.filter fun item => item.title = q) = [] →
      (initPreferred q env st0).error = some (noSourceFoundFallbackMsg q)
      ∧ (initPreferred q env st0).loading = false) := by
  have hab0 : ∀ k, abortedAt env.abortFrom k = false := by
    intro k
    rw [hab]
    rfl
  constructor
  · intro hf
    have hflen : (allResults.filter fun item => item.title = q).length ≠ 0 := by
      simpa [List.length_eq_zero] using hf
    have hbody : initPreferredBody q env (initResetState q st0)
        = ({ processAndSetResultsUpdate (initResetState q st0)
              ((allResults.filter fun item => item.title = q).map (enrichResult env.probe))
              false with loading := false }, false) := by
      unfold initPreferredBody
      rw [hpref, hfb]
      simp [hab0, hflen, processAndSetResults]
    have hinit : initPreferred q env st0
        = finallyStep false
            (finalSection q env.favOutcome
              ({ processAndSetResultsUpdate (initResetState q st0)
                  ((allResults.filter fun item => item.title = q).map (enrichResult env.probe))
                  false with loading := false })) := by
      unfold initPreferred
      simp [hbody, hab0]
    set stm := ({ processAndSetResultsUpdate (initResetState q st0)
        ((allResults.filter fun item => item.title = q).map (enrichResult env.probe))
        false with loading := false } : DetailState) with hstm
    have hsr : stm.searchResults
        = (allResults.filter fun item => item.title = q).map (enrichResult env.probe) := rfl
    have herr : stm.error = none := rfl
    have hload : stm.loading = false := rfl
    have hlen2 : ¬ (stm.searchResults.length = 0 ∧ stm.error = none) := by
      rw [hsr]
      intro hcon
      rw [List.length_map, List.length_eq_zero] at hcon
      exact hf hcon.1
    rw [hinit, finallyStep_false]
    refine ⟨?_, rfl, ?_⟩
    · show (finalSection q env.favOutcome stm).searchResults
        = (allResults.filter fun item => item.title = q).map (enrichResult env.probe)
      rw [(finalSection_fields q env.favOutcome stm).1, hsr]
    · show (finalSection q env.favOutcome stm).error = none
      rw [finalSection_error_of q env.favOutcome stm hlen2, herr]
  · intro hf
    have hbody : initPreferredBody q env (initResetState q st0)
        = ({ initResetState q st0 with
              error := some (noSourceFoundFallbackMsg q)
              loading := false }, false) := by
      unfold initPreferredBody
      rw [hpref, hfb]
      simp [hab0, hf, processAndSetResults]
    have hinit : initPreferred q env st0
        = finallyStep false
            (finalSection q env.favOutcome
              ({ initResetState q st0 with
                  error := some (noSourceFoundFallbackMsg q)
                  loading := false })) := by
      unfold initPreferred
      simp [hbody, hab0]
    set stm := ({ initResetState q st0 with
        error := some (noSourceFoundFallbackMsg q)
        loading := false } : DetailState) with hstm
    have hlen2 : ¬ (stm.searchResults.length = 0 ∧ stm.error = none) := by
      intro hcon
      exact Option.noConfusion hcon.2
    rw [hinit, finallyStep_false]
    refine ⟨?_, rfl⟩
    show (finalSection q env.favOutcome stm).error = some (noSourceFoundFallbackMsg q)
    rw [finalSection_error_of q env.favOutcome stm hlen2]

/-- C8 witness: the spec's scenario — preferred source returns 0 results for
"X", the all-sources fallback returns candidates B and C titled "X" — ends
with result set {B, C}, loading cleared and no error. -/
theorem C8_witness :
    (initPreferred "X"
        (⟨Except.ok [], Except.ok
            [⟨1, "X", ["e1"], "B", "Site B", "2024", none, none⟩,
             ⟨2, "X", ["e1"], "C", "Site C", "2024", none, none⟩],
          Except.ok [], fun _ => none, Except.ok false, none⟩ : InitAEnv)
        initialState).searchResults
      = [⟨1, "X", ["e1"], "B", "Site B", "2024", none, none⟩,
         ⟨2, "X", ["e1"], "C", "Site C", "2024", none, none⟩]
    ∧ (initPreferred "X"
        (⟨Except.ok [], Except.ok
            [⟨1, "X", ["e1"], "B", "Site B", "2024", none, none⟩,
             ⟨2, "X", ["e1"], "C", "Site C", "2024", none, none⟩],
          Except.ok [], fun _ => none, Except.ok false, none⟩ : InitAEnv)
        initialState).loading = false
    ∧ (initPreferred "X"
        (⟨Except.ok [], Except.ok
            [⟨1, "X", ["e1"], "B", "Site B", "2024", none, none⟩,
             ⟨2, "X", ["e1"], "C", "Site C", "2024", none, none⟩],
          Except.ok [], fun _ => none, Except.ok false, none⟩ : InitAEnv)
        initialState).error = none :=
  (C8_preferred_fallback "X"
    (⟨Except.ok [], Except.ok
        [⟨1, "X", ["e1"], "B", "Site B", "2024", none, none⟩,
         ⟨2, "X", ["e1"], "C", "Site C", "2024", none, none⟩],
      Except.ok [], fun _ => none, Except.ok false, none⟩ : InitAEnv)
    initialState rfl rfl
    [⟨1, "X", ["e1"], "B", "Site B", "2024", none, none⟩,
     ⟨2, "X", ["e1"], "C", "Site C", "2024", none, none⟩] rfl).1 (by decide)

theorem finallyStep_searchResults (b : Bool) (st : DetailState) :
    (finallyStep b st).searchResults = st.searchResults := by
  cases b <;> rfl

theorem enrichResult_title (probe : String → Option String) (r : Candidate) :
    (enrichResult probe r).title = r.title := by
  unfold enrichResult
  rcases r.videoInfo with _ | v <;> rfl

theorem processAndSetResultsUpdate_searchResults (st : DetailState)
    (rs : List Candidate) (m : Bool) :
    (processAndSetResultsUpdate st rs m).searchResults
      = if m then
          st.searchResults ++ rs.filter
            (fun r => !((st.searchResults.map (fun c => c.source)).contains r.source))
        else rs := by
  cases m <;> rfl

theorem processAndSetResults_title (q : String) (probe : String → Option String)
    (aborted : Bool) (st : DetailState) (batch : List Candidate) (m : Bool)
    (hst : ∀ r ∈ st.searchResults, r.title = q)
    (hb : ∀ r ∈ batch, r.title = q) :
    ∀ r ∈ (processAndSetResults probe aborted st batch m).searchResults, r.title = q := by
  have hmap : ∀ r ∈ batch.map (enrichResult probe), r.title = q := by
    intro r hr
    obtain ⟨x, hx, hxr⟩ := List.mem_map.mp hr
    rw [← hxr, enrichResult_title]
    exact hb x hx
  cases aborted
  · intro r hr
    have hr2 : r ∈ (processAndSetResultsUpdate st (batch.map (enrichResult probe)) m).searchResults := hr
    rw [processAndSetResultsUpdate_searchResults] at hr2
    cases m
    · exact hmap r hr2
    · simp only [if_true] at hr2
      rcases List.mem_append.mp hr2 with h | h
      · exact hst r h
      · exact hmap r (List.mem_of_mem_filter h)
  · exact hst

theorem searchVideoClientFilter_title (q : String) (wire : List Candidate) :
    ∀ r ∈ searchVideoClientFilter q wire, r.title = q := by
  intro r hr
  exact of_decide_eq_true (List.mem_filter.mp hr).2

theorem filter_title (q : String) (l : List Candidate) :
    ∀ r ∈ l.filter (fun item => item.title = q), r.title = q := by
  intro r hr
  exact of_decide_eq_true (List.mem_filter.mp hr).2

theorem initPreferredBody_title (q : String) (env : InitAEnv) (st1 : DetailState)
    (h1 : ∀ r ∈ st1.searchResults, r.title = q) :
    ∀ r ∈ ((initPreferredBody q env st1).1).searchResults, r.title = q := by
  have hpref : ∀ r ∈ preferredResultOf q env, r.title = q := by
    unfold preferredResultOf
    cases env.preferredWire with
    | ok rs => exact searchVideoClientFilter_title q rs
    | error e => exact fun r hr => absurd hr (List.not_mem_nil r)
  intro r
  unfold initPreferredBody
  dsimp only
  split <;> (try split) <;> (try split) <;> (try split) <;>
    first
      | exact fun hr => h1 r hr
      | exact fun hr => processAndSetResults_title q env.probe _ st1 _ false h1 hpref r hr
      | exact fun hr => processAndSetResults_title q env.probe _ st1 _ false h1
          (filter_title q _) r hr
      | exact fun hr => by
          refine processAndSetResults_title q env.probe _ _ _ true ?_ (filter_title q _) r hr
          intro r2 hr2
          exact processAndSetResults_title q env.probe _ st1 _ false h1 hpref r2 hr2

theorem standardStep_title (q : String) (env : InitBEnv) (site : ApiSite)
    (acc : DetailState × Bool × ℕ)
    (h : ∀ r ∈ acc.1.searchResults, r.title = q) :
    ∀ r ∈ ((standardStep q env acc site).1).searchResults, r.title = q := by
  intro r
  unfold standardStep
  dsimp only
  split <;> (try split) <;> (try split) <;>
    first
      | exact fun hr => h r hr
      | exact fun hr => processAndSetResults_title q env.probe _ acc.1 _ true h
          (searchVideoClientFilter_title q _) r hr

theorem foldl_standardStep_title (q : String) (env : InitBEnv) :
    ∀ (order : List ApiSite) (acc : DetailState × Bool × ℕ),
      (∀ r ∈ acc.1.searchResults, r.title = q) →
      ∀ r ∈ ((order.foldl (standardStep q env) acc).1).searchResults, r.title = q := by
  intro order
  induction order with
  | nil => exact fun acc h => h
  | cons site rest IH =>
    exact fun acc h => IH (standardStep q env acc site) (standardStep_title q env site acc h)

/-- C10: every candidate ever stored in the result set carries a title exactly
equal to the session's query: the single-source search filters to exact title
at the api-client layer, and the all-sources fallback and background
reconciliation filter before merging — in both protocols, under every wire
response, probe behaviour, abort schedule and completion order. -/
theorem C10_title_invariant :
    (∀ (q : String) (env : InitAEnv) (st0 : DetailState),
        ∀ r ∈ (initPreferred q env st0).searchResults, r.title = q)
    ∧ (∀ (q : String) (env : InitBEnv) (st0 : DetailState),
        ∀ r ∈ (initStandard q env st0).searchResults, r.title = q) := by
  constructor
  · intro q env st0 r hr
    have e : (initPreferred q env st0).searchResults
        = ((initPreferredBody q env (initResetState q st0)).1).searchResults := by
      unfold initPreferred
      rcases hB : initPreferredBody q env (initResetState q st0) with ⟨stB, early⟩
      simp only [hB]
      cases early
      · simp only [Bool.false_eq_true, if_false]
        rw [finallyStep_searchResults, (finalSection_fields q env.favOutcome stB).1]
      · simp only [if_true]
        rw [finallyStep_searchResults]
    rw [e] at hr
    exact initPreferredBody_title q env (initResetState q st0)
      (fun r2 hr2 => absurd hr2 (List.not_mem_nil r2)) r hr
  · intro q env st0 r hr
    unfold initStandard at hr
    have hfold := foldl_standardStep_title q env env.completionOrder
      (initResetState q st0, false, 0)
      (fun r2 hr2 => absurd hr2 (List.not_mem_nil r2))
    rcases hres : env.resourcesOutcome with e | allResources <;> simp only [hres] at hr
    · rw [finallyStep_searchResults] at hr
      exact absurd hr (List.not_mem_nil r)
    · split_ifs at hr <;> rw [finallyStep_searchResults] at hr <;>
        first
          | exact absurd hr (List.not_mem_nil r)
          | (rw [(finalSection_fields q env.favOutcome _).1] at hr; exact hfold r hr)

/-- C10 witness: the invariant applied to a concrete protocol-A run whose
fallback stored one candidate. -/
theorem C10_witness :
    (⟨1, "X", ["e1"], "B", "Site B", "2024", none, none⟩ : Candidate).title = "X" :=
  C10_title_invariant.1 "X"
    (⟨Except.ok [], Except.ok [⟨1, "X", ["e1"], "B", "Site B", "2024", none, none⟩],
      Except.ok [], fun _ => none, Except.ok false, none⟩ : InitAEnv)
    initialState ⟨1, "X", ["e1"], "B", "Site B", "2024", none, none⟩ (by decide)

/-! ### Cancellation (claim C3) -/

/-- C3 as stated is false: the all-sources fallback `searchVideos` call is not
issued against the session signal (the api client's `searchVideos` takes no
signal at all), and its completion handler writes `error`/`loading` without
re-checking the signal.  Concretely: the signal is observed aborted from
checkpoint 1 on — before the fallback completion is processed (checkpoint 3)
— yet the run ends with a user-facing error recorded and `loading` cleared,
although the state right after the session reset had no error. -/
theorem C3_counterexample :
    abortedAt (some 1) 1 = true
    ∧ (initPreferred "X"
        (⟨Except.ok [], Except.ok [], Except.ok [], fun _ => none, Except.ok false,
          some 1⟩ : InitAEnv) initialState).error
        = some (noSourceFoundFallbackMsg "X")
    ∧ (initPreferred "X"
        (⟨Except.ok [], Except.ok [], Except.ok [], fun _ => none, Except.ok false,
          some 1⟩ : InitAEnv) initialState).loading = false
    ∧ (initResetState "X" initialState).error = none
    ∧ (initResetState "X" initialState).loading = true := by
  refine ⟨rfl, by decide, by decide, rfl, rfl⟩

theorem initPreferredBody_aborted (q : String) (env : InitAEnv) (st1 : DetailState)
    (h : env.abortFrom = some 1) :
    ((initPreferredBody q env st1).1).searchResults = st1.searchResults
    ∧ ((initPreferredBody q env st1).1).sources = st1.sources
    ∧ ((initPreferredBody q env st1).1).detail = st1.detail
    ∧ ((initPreferredBody q env st1).1).allSourcesLoaded = st1.allSourcesLoaded := by
  unfold initPreferredBody
  rw [h]
  simp only [abortedAt]
  norm_num
  split <;> (try split) <;> (try split) <;> exact ⟨rfl, rfl, rfl, rfl⟩

theorem standardStep_aborted (q : String) (env : InitBEnv)
    (hm : ∀ k, env.mergeAborted k = true) (acc : DetailState × Bool × ℕ) (site : ApiSite) :
    ((standardStep q env acc site).1).searchResults = acc.1.searchResults
    ∧ ((standardStep q env acc site).1).sources = acc.1.sources
    ∧ ((standardStep q env acc site).1).detail = acc.1.detail
    ∧ ((standardStep q env acc site).1).allSourcesLoaded = acc.1.allSourcesLoaded := by
  unfold standardStep
  rw [hm site.key]
  simp only [processAndSetResults, if_true]
  split <;> (try split) <;> (try split) <;> exact ⟨rfl, rfl, rfl, rfl⟩

theorem foldl_standardStep_aborted (q : String) (env : InitBEnv)
    (hm : ∀ k, env.mergeAborted k = true) :
    ∀ (order : List ApiSite) (acc : DetailState × Bool × ℕ),
      ((order.foldl (standardStep q env) acc).1).searchResults = acc.1.searchResults
      ∧ ((order.foldl (standardStep q env) acc).1).sources = acc.1.sources
      ∧ ((order.foldl (standardStep q env) acc).1).detail = acc.1.detail
      ∧ ((order.foldl (standardStep q env) acc).1).allSourcesLoaded
          = acc.1.allSourcesLoaded := by
  intro order
  induction order with
  | nil => exact fun acc => ⟨rfl, rfl, rfl, rfl⟩
  | cons site rest IH =>
    intro acc
    obtain ⟨i1, i2, i3, i4⟩ := IH (standardStep q env acc site)
    obtain ⟨s1, s2, s3, s4⟩ := standardStep_aborted q env hm acc site
    exact ⟨i1.trans s1, i2.trans s2, i3.trans s3, i4.trans s4⟩

/-- C3 amended: the single-source searches and the catalog fetch carry the
session signal and every result-set merge re-checks it, so `searchResults`,
the `sources` projection, `detail` and the terminal flag are never mutated
by completions arriving after cancellation — in either protocol (the reset
leaves the result set empty and the `sources` projection exactly as the
previous session left it).  But the all-sources `searchVideos` calls carry
no signal, and the fallback/final `error` and `loading` writes run
unguarded, so those two fields can still be mutated after cancellation. -/
theorem C3_cancellation_amended :
    (∀ (q : String) (env : InitAEnv) (st0 : DetailState),
        env.abortFrom = some 1 →
        (initPreferred q env st0).searchResults = []
        ∧ (initPreferred q env st0).sources = st0.sources
        ∧ (initPreferred q env st0).detail = none
        ∧ (initPreferred q env st0).allSourcesLoaded = false)
    ∧ (∀ (q : String) (env : InitBEnv) (st0 : DetailState),
        (∀ k, env.mergeAborted k = true) → env.finallyAborted = true →
        (initStandard q env st0).searchResults = []
        ∧ (initStandard q env st0).sources = st0.sources
        ∧ (initStandard q env st0).detail = none
        ∧ (initStandard q env st0).allSourcesLoaded = false) := by
  constructor
  · intro q env st0 h
    obtain ⟨b1, b2, b3, b4⟩ := initPreferredBody_aborted q env (initResetState q st0) h
    have hab7 : abortedAt env.abortFrom 7 = true := by rw [h]; rfl
    have e : initPreferred q env st0
        = finallyStep true
            (if (initPreferredBody q env (initResetState q st0)).2 = true
             then (initPreferredBody q env (initResetState q st0)).1
             else finalSection q env.favOutcome
               ((initPreferredBody q env (initResetState q st0)).1)) := by
      unfold initPreferred
      rw [hab7]
    rw [e, finallyStep_true]
    split_ifs
    · exact ⟨b1, b2, b3, b4⟩
    · refine ⟨?_, ?_, ?_, ?_⟩
      · rw [(finalSection_fields q env.favOutcome _).1]
        exact b1
      · rw [finalSection_sources]
        exact b2
      · rw [(finalSection_fields q env.favOutcome _).2.1]
        exact b3
      · rw [(finalSection_fields q env.favOutcome _).2.2.2.1]
        exact b4
  · intro q env st0 hm hfin
    obtain ⟨f1, f2, f3, f4⟩ := foldl_standardStep_aborted q env hm env.completionOrder
      (initResetState q st0, false, 0)
    unfold initStandard
    rcases hres : env.resourcesOutcome with e | allResources <;>
      simp only [hres, hfin, finallyStep_true]
    · exact ⟨rfl, rfl, rfl, rfl⟩
    · split_ifs <;>
        first
          | exact ⟨rfl, rfl, rfl, rfl⟩
          | refine ⟨?_, ?_, ?_, ?_⟩ <;>
              first
                | rw [(finalSection_fields q env.favOutcome _).1]; exact f1
                | rw [finalSection_sources]; exact f2
                | rw [(finalSection_fields q env.favOutcome _).2.1]; exact f3
                | rw [(finalSection_fields q env.favOutcome _).2.2.2.1]; exact f4

/-- C3 witness: the amended guarantee applied at a concrete aborted session:
the cancelled run leaves the result set, the `sources` projection, the
selected detail and the terminal flag untouched. -/
theorem C3_witness :
    (initPreferred "X"
      (⟨Except.ok [], Except.ok [], Except.ok [], fun _ => none, Except.ok false,
        some 1⟩ : InitAEnv) initialState).searchResults = []
    ∧ (initPreferred "X"
      (⟨Except.ok [], Except.ok [], Except.ok [], fun _ => none, Except.ok false,
        some 1⟩ : InitAEnv) initialState).sources = initialState.sources
    ∧ (initPreferred "X"
      (⟨Except.ok [], Except.ok [], Except.ok [], fun _ => none, Except.ok false,
        some 1⟩ : InitAEnv) initialState).detail = none
    ∧ (initPreferred "X"
      (⟨Except.ok [], Except.ok [], Except.ok [], fun _ => none, Except.ok false,
        some 1⟩ : InitAEnv) initialState).allSourcesLoaded = false :=
  C3_cancellation_amended.1 "X"
    (⟨Except.ok [], Except.ok [], Except.ok [], fun _ => none, Except.ok false,
      some 1⟩ : InitAEnv) initialState rfl

end OrionTV
